import Mathlib

/-!
Shallow embedding of the AImongUs game engine
(`src/packages/client-fxn/src/wordAileManager.ts`, class `AmongUsManager`,
plus the player-side client `FxnClientInterface.validateAction`).

The JS `Map<string, PlayerState>` is modelled as a `List PlayerState` kept in
insertion order (a JS `Map` iterates in insertion order; `Map.get` is modelled
by `find?` on the key, `Map.set` by in-place update or append).  Randomness
(`Math.random()`) is modelled by explicit oracle parameters: the already
shuffled list for `sort(() => Math.random() - 0.5)` (which always returns some
permutation of its input), a `Nat → Fin 6` draw for `Math.floor(Math.random()*6)`,
and explicit `Bool`/`Nat` draws for the bot policy.  Timers, logging and the
network broadcast are I/O and are not part of the state transformers modelled
here; the state mutations each handler performs are modelled exactly.
-/

namespace AImongUs

/-- Hidden faction of a player (source `PlayerRole.type`). -/
inductive RoleType
  | crewmate
  | impostor
  deriving DecidableEq

/-- Faction plus current room index, 0-5 for the 6 rooms (source `PlayerRole`). -/
structure PlayerRole where
  type : RoleType
  room : Nat
  deriving DecidableEq

/-- Kind of an action-phase decision (source `PlayerAction.type`). -/
inductive ActionType
  | accuse
  | pass
  | kill
  deriving DecidableEq

/-- An action-phase decision (source `PlayerAction`). -/
structure PlayerAction where
  type : ActionType
  target : Option String := none
  accusationText : Option String := none
  deriving DecidableEq

/-- Kind of a movement-phase decision (source `PlayerMovement.type`). -/
inductive MovementType
  | stay
  | clockwise
  | counterclockwise
  deriving DecidableEq

/-- A voting-phase decision; `target = none` is the skip vote (source `PlayerVote`). -/
structure PlayerVote where
  target : Option String
  voteText : String
  deriving DecidableEq

/-- One seat in the game (source `PlayerState`). -/
structure PlayerState where
  publicKey : String
  role : PlayerRole
  isAlive : Bool
  lastAction : Option PlayerAction := none
  lastMovement : Option MovementType := none
  lastVote : Option PlayerVote := none
  deriving DecidableEq

/-- The phase state machine values (source `GameState.phase`). -/
inductive Phase
  | action
  | movement
  | voting
  | complete
  deriving DecidableEq

/-- The winning faction tag (source `GameState.winner`). -/
inductive Winner
  | crew
  | impostors
  deriving DecidableEq

/-- The single mutable aggregate (source `GameState`).  `players` is the JS
`Map` in insertion order; `votingResults` is the optional voter → voted map in
insertion order, with the string sentinel `skip` as a possible value. -/
structure GameState where
  players : List PlayerState
  phase : Phase
  currentRound : Nat
  actionOrder : List String
  accusedPlayer : Option String := none
  votingResults : Option (List (String × String)) := none
  isActive : Bool
  winner : Option Winner := none
  deriving DecidableEq

/-- `Map.get` on the players map: first entry with the given key. -/
def findKey (k : String) (ps : List PlayerState) : Option PlayerState :=
  ps.find? (fun p => decide (p.publicKey = k))

/-- `player.isAlive = false` applied to the entry with the given key
(source `target.isAlive = false`). -/
def setDead (ps : List PlayerState) (k : String) : List PlayerState :=
  ps.map (fun p => if p.publicKey = k then { p with isAlive := false } else p)

/-- The alive flag of the player stored under a key, if any. -/
def aliveByKey (s : GameState) (k : String) : Option Bool :=
  (findKey k s.players).map (fun p => p.isAlive)

/-- The kill target recorded in a player's pending action, if its action is a
kill with a (truthy) target (source guard
`player.lastAction?.type === 'kill' && player.lastAction.target`). -/
def killOf (p : PlayerState) : Option String :=
  match p.lastAction with
  | some a => if a.type = ActionType.kill then a.target else none
  | none => none

/-- One iteration of the kill loop in `processRound` for one acting player:
look the target up in the current map and kill it when it is alive, the actor
is an impostor, and both share a room.  Note the source checks neither that the
target differs from the actor nor that the target is not itself an impostor. -/
def killStep (ps : List PlayerState) (actor : PlayerState) : List PlayerState :=
  match killOf actor with
  | some t =>
    match findKey t ps with
    | some target =>
      if target.isAlive = true ∧ actor.role.type = RoleType.impostor
          ∧ target.role.room = actor.role.room
      then setDead ps t
      else ps
    | none => ps
  | none => ps

/-- The kill pass of `processRound` ("Process kills first").  The JS loop
iterates the live map entries while mutating them, but the only field it
mutates is `isAlive`, which it never reads from the acting player, and the key
set is fixed; iterating the pre-loop snapshot of the entries is therefore
equivalent and is how the loop is modelled. -/
def processKills (s : GameState) : GameState :=
  { s with players := s.players.foldl killStep s.players }

/-- One player's movement update in `processRound`
("Update positions based on movements"). -/
def moveStep (p : PlayerState) : PlayerState :=
  match p.lastMovement with
  | some MovementType.clockwise =>
      { p with role := { p.role with room := (p.role.room + 1) % 6 } }
  | some MovementType.counterclockwise =>
      { p with role := { p.role with room := (p.role.room + 5) % 6 } }
  | some MovementType.stay => p
  | none => p

/-- The movement pass of `processRound`. -/
def processMovements (s : GameState) : GameState :=
  { s with players := s.players.map moveStep }

/-- The clearing pass of `processRound`
("Clear only the action/movement records while preserving states"):
`lastAction` and `lastMovement` are reset; `lastVote` is left untouched. -/
def clearDecisions (s : GameState) : GameState :=
  { s with players :=
      s.players.map (fun p => { p with lastAction := none, lastMovement := none }) }

/-- Count of alive impostors (source `aliveImpostors` in `checkWinCondition`). -/
def aliveImpostorCount (s : GameState) : Nat :=
  ((s.players.filter (fun p => p.isAlive)).filter
    (fun p => decide (p.role.type = RoleType.impostor))).length

/-- Count of alive crew, computed as in the source:
`alivePlayers.length - aliveImpostors`. -/
def aliveCrewCount (s : GameState) : Nat :=
  (s.players.filter (fun p => p.isAlive)).length - aliveImpostorCount s

/-- Source `checkWinCondition`: crew wins when no impostor is alive, otherwise
impostors win when no crew is alive, otherwise the state is unchanged. -/
def checkWinCondition (s : GameState) : GameState :=
  if aliveImpostorCount s = 0 then
    { s with isActive := false, winner := some Winner.crew }
  else if aliveCrewCount s = 0 then
    { s with isActive := false, winner := some Winner.impostors }
  else s

/-- Source `shuffleActionOrder` before its random sort: the keys of the alive
players, in map order. -/
def aliveKeys (s : GameState) : List String :=
  (s.players.filter (fun p => p.isAlive)).map (fun p => p.publicKey)

/-- Source `startRound` (the state mutations only; broadcast and timer are
I/O): guarded on `isActive`, enters the action phase and re-shuffles the
action order.  `shuffle` is the random-sort oracle. -/
def startRound (shuffle : List String → List String) (s : GameState) : GameState :=
  if s.isActive = false then s
  else { s with phase := Phase.action, actionOrder := shuffle (aliveKeys s) }

/-- Source `startMovementPhase` (state mutations only). -/
def startMovementPhase (s : GameState) : GameState :=
  { s with phase := Phase.movement }

/-- Source `startVotingPhase` (state mutations only): enters voting, records
the accused and resets `votingResults` to an empty map. -/
def startVotingPhase (s : GameState) (accusedPlayer : String) : GameState :=
  { s with phase := Phase.voting,
           accusedPlayer := some accusedPlayer,
           votingResults := some [] }

/-- `Map.set` on the vote tally: update in place when the key exists, else
append (JS `Map.set` keeps the original insertion position). -/
def tallySet (m : List (String × Nat)) (k : String) (v : Nat) : List (String × Nat) :=
  if m.any (fun e => decide (e.1 = k)) then
    m.map (fun e => if e.1 = k then (k, v) else e)
  else m ++ [(k, v)]

/-- `votes.get(target) || 0` on the tally map. -/
def tallyGet (m : List (String × Nat)) (k : String) : Nat :=
  match m.find? (fun e => decide (e.1 = k)) with
  | some e => e.2
  | none => 0

/-- The tally loop of `processVotes`: starts from a map holding `skip ↦ 0` and
increments the count of each cast vote's target in order. -/
def countVotes (vr : List (String × String)) : List (String × Nat) :=
  vr.foldl (fun m e => tallySet m e.2 (tallyGet m e.2 + 1)) [("skip", 0)]

/-- The maximum search of `processVotes`: walk the tally in insertion order
keeping the first key whose count strictly exceeds the running maximum
(which starts at 0). -/
def findEjected (votes : List (String × Nat)) : Option String :=
  (votes.foldl
    (fun acc e => if e.2 > acc.1 then (e.2, some e.1) else acc)
    ((0 : Nat), (none : Option String))).2

/-- Source `processVotes` (state mutations only): early-return unless both
`votingResults` and `accusedPlayer` are set; tally; eject the found key unless
it is the skip sentinel; run `checkWinCondition`; start a new round when the
game is still active.  Neither `accusedPlayer` nor `votingResults` is cleared. -/
def processVotes (shuffle : List String → List String) (s : GameState) : GameState :=
  match s.votingResults, s.accusedPlayer with
  | some vr, some _ =>
    let votes := countVotes vr
    let s1 : GameState :=
      match findEjected votes with
      | some e => if e = "skip" then s else { s with players := setDead s.players e }
      | none => s
    let s2 := checkWinCondition s1
    if s2.isActive = true then startRound shuffle s2 else s2
  | _, _ => s

/-- Source `processRound` (state mutations only): kills, then movements, then
clearing of the action/movement slots, then the win check; when the game is
still active the round counter is incremented and a new action round starts,
otherwise the state is only broadcast (no further mutation). -/
def processRound (shuffle : List String → List String) (s : GameState) : GameState :=
  let s1 := clearDecisions (processMovements (processKills s))
  let s2 := checkWinCondition s1
  if s2.isActive = true then
    startRound shuffle { s2 with currentRound := s2.currentRound + 1 }
  else s2

/-- `Map.set` on the players map (used by `assignRoles`). -/
def mapSet (ps : List PlayerState) (p : PlayerState) : List PlayerState :=
  if ps.any (fun q => decide (q.publicKey = p.publicKey)) then
    ps.map (fun q => if q.publicKey = p.publicKey then p else q)
  else ps ++ [p]

/-- The player record built for one shuffled index in `assignRoles`: indices
`< 2` become impostors, the rest crew; each draws a random room in `[0, 6)`. -/
def rolesPlayer (rooms : Nat → Fin 6) (pk : String) (idx : Nat) : PlayerState :=
  { publicKey := pk,
    role := { type := if idx < 2 then RoleType.impostor else RoleType.crewmate,
              room := (rooms idx).val },
    isAlive := true }

/-- The `forEach` loop of `assignRoles`. -/
def assignRolesAux (rooms : Nat → Fin 6) :
    List String → Nat → List PlayerState → List PlayerState
  | [], _, acc => acc
  | pk :: rest, idx, acc =>
    assignRolesAux rooms rest (idx + 1) (mapSet acc (rolesPlayer rooms pk idx))

/-- Source `assignRoles`, applied to the already shuffled candidate list
(`[...players].sort(() => Math.random() - 0.5)` returns some permutation of
its input; the permutation actually drawn is the `shuffled` argument).
`rooms` is the per-index oracle for `Math.floor(Math.random() * 6)`. -/
def assignRoles (shuffled : List String) (rooms : Nat → Fin 6) : List PlayerState :=
  assignRolesAux rooms shuffled 0 []

/-- Synthetic seat names, source `` `bot-${activePlayers.length + 1}` ``. -/
def botName (n : Nat) : String := "bot-" ++ toString n

/-- The padding loop of `startGame` with explicit fuel: each pass appends one
bot name, and the loop runs at most `6 - length ≤ 6` times, so fuel 6 is
exact. -/
def padWithBotsAux : Nat → List String → List String
  | 0, l => l
  | n + 1, l =>
    if l.length < 6 then padWithBotsAux n (l ++ [botName (l.length + 1)])
    else l

/-- Source `startGame` padding:
`while (activePlayers.length < 6) activePlayers.push(...)`. -/
def padWithBots (l : List String) : List String :=
  padWithBotsAux 6 l

/-- Count of players holding the impostor role (alive or not). -/
def countImpostors (ps : List PlayerState) : Nat :=
  (ps.filter (fun p => decide (p.role.type = RoleType.impostor))).length

/-- Count of players holding the crewmate role (alive or not). -/
def countCrew (ps : List PlayerState) : Nat :=
  (ps.filter (fun p => decide (p.role.type = RoleType.crewmate))).length

/-- The host-side acceptance step for an action reply in `broadcastGameState`:
a kill submitted by a non-impostor has its type overwritten to pass before
being stored (the only validation the host applies on acceptance). -/
def acceptAction (p : PlayerState) (a : PlayerAction) : PlayerAction :=
  if a.type = ActionType.kill ∧ ¬ p.role.type = RoleType.impostor then
    { a with type := ActionType.pass }
  else a

/-- The guard under which the host's kill pass actually eliminates key `k` on
behalf of actor `a`, evaluated on state `s`: `a` holds a kill on `k`, `a` is
an impostor, and `k` resolves to an alive, co-located player. -/
def validHostKill (s : GameState) (a : PlayerState) (k : String) : Bool :=
  decide (killOf a = some k) && decide (a.role.type = RoleType.impostor) &&
    (match findKey k s.players with
     | some tgt => tgt.isAlive && decide (tgt.role.room = a.role.room)
     | none => false)

/-- One redacted player record in a view (source `getPlayerView` map body). -/
structure PlayerViewEntry where
  publicKey : String
  isAlive : Bool
  room : Nat
  role : Option RoleType
  lastAction : Option PlayerAction
  lastVote : Option PlayerVote
  deriving DecidableEq

/-- The per-participant view (source `getPlayerView` return shape). -/
structure PlayerView where
  phase : Phase
  currentRound : Nat
  actionOrder : List String
  accusedPlayer : Option String
  yourRole : Option PlayerRole
  players : List PlayerViewEntry
  winner : Option Winner
  deriving DecidableEq

/-- Source `getPlayerView`: the role field of every record is present exactly
when the viewer's own role is impostor, and is withheld (undefined, modelled
`none`) otherwise. -/
def getPlayerView (s : GameState) (publicKey : String) : PlayerView :=
  let player := findKey publicKey s.players
  let isImpostor : Bool :=
    match player with
    | some p => decide (p.role.type = RoleType.impostor)
    | none => false
  { phase := s.phase,
    currentRound := s.currentRound,
    actionOrder := s.actionOrder,
    accusedPlayer := s.accusedPlayer,
    yourRole := player.map (fun p => p.role),
    players := s.players.map (fun p =>
      { publicKey := p.publicKey,
        isAlive := p.isAlive,
        room := p.role.room,
        role := if isImpostor = true then some p.role.type else none,
        lastAction := p.lastAction,
        lastVote := p.lastVote }),
    winner := s.winner }

/-- A bot's action-phase decision shape. -/
inductive BotActionDecision
  | pass
  | kill (target : String)
  deriving DecidableEq

/-- Source `makeBotDecision`, action branch.  `wantsKill` is the draw for
`Math.random() < 0.3` and `pick` the draw for the target index.  The candidate
filter requires the record's role field to be absent (JS `!p.role`). -/
def makeBotActionDecision (view : PlayerView) (wantsKill : Bool) (pick : Nat) :
    BotActionDecision :=
  match view.yourRole with
  | none => BotActionDecision.pass
  | some yourRole =>
    if yourRole.type = RoleType.impostor ∧ wantsKill = true then
      let potentialTargets := view.players.filter
        (fun p => p.isAlive && decide (p.room = yourRole.room) && decide (p.role = none))
      if h : 0 < potentialTargets.length then
        BotActionDecision.kill
          (potentialTargets.get ⟨pick % potentialTargets.length, Nat.mod_lt _ h⟩).publicKey
      else BotActionDecision.pass
    else BotActionDecision.pass

/-- `Map.get` on the view's player records. -/
def findKeyView (k : String) (l : List PlayerViewEntry) : Option PlayerViewEntry :=
  l.find? (fun p => decide (p.publicKey = k))

/-- Player-side client validation (source `FxnClientInterface.validateAction`).
Self-targeting is checked against the first listed record (`players[0]`); for
kills, a target whose visible role is impostor is rejected, and the target
must appear alive and co-located with the viewer.  An empty player list or an
absent own role make the corresponding JS accesses crash; they are modelled as
failed comparisons. -/
def validateAction (action : String) (target : String) (view : PlayerView) : Bool :=
  let selfTarget : Bool :=
    match view.players.head? with
    | some p0 => decide (target = p0.publicKey)
    | none => false
  if selfTarget = true then false
  else if action = "kill" then
    let targetPlayer := findKeyView target view.players
    if (match targetPlayer with
        | some tp => decide (tp.role = some RoleType.impostor)
        | none => false) = true then false
    else if (view.players.any (fun p =>
        decide (p.publicKey = target) &&
        (match view.yourRole with
         | some r => decide (p.room = r.room)
         | none => false) &&
        p.isAlive)) = false then false
    else true
  else true

/-- The room-range invariant of the spec: every player's room index is in
`[0, 6)`. -/
def RoomInv (s : GameState) : Prop :=
  ∀ p ∈ s.players, p.role.room < 6

/-- Everything the kill pass can read from a player but never writes:
all fields except `isAlive`. -/
def dataOf (p : PlayerState) :
    String × PlayerRole × Option PlayerAction × Option MovementType × Option PlayerVote :=
  (p.publicKey, p.role, p.lastAction, p.lastMovement, p.lastVote)

theorem killStep_none {a : PlayerState} (ps : List PlayerState) (h : killOf a = none) :
    killStep ps a = ps := by
  unfold killStep
  rw [h]

theorem killStep_noTarget {a : PlayerState} {t : String} (ps : List PlayerState)
    (h : killOf a = some t) (h2 : findKey t ps = none) :
    killStep ps a = ps := by
  unfold killStep
  rw [h]
  dsimp only
  rw [h2]

theorem killStep_guardFalse {a tgt : PlayerState} {t : String} (ps : List PlayerState)
    (h : killOf a = some t) (h2 : findKey t ps = some tgt)
    (h3 : ¬ (tgt.isAlive = true ∧ a.role.type = RoleType.impostor
              ∧ tgt.role.room = a.role.room)) :
    killStep ps a = ps := by
  unfold killStep
  rw [h]
  dsimp only
  rw [h2]
  dsimp only
  rw [if_neg h3]

theorem killStep_fire {a tgt : PlayerState} {t : String} (ps : List PlayerState)
    (h : killOf a = some t) (h2 : findKey t ps = some tgt)
    (h3 : tgt.isAlive = true ∧ a.role.type = RoleType.impostor
              ∧ tgt.role.room = a.role.room) :
    killStep ps a = setDead ps t := by
  unfold killStep
  rw [h]
  dsimp only
  rw [h2]
  dsimp only
  rw [if_pos h3]

theorem setDead_map {α : Type} (f : PlayerState → α)
    (hf : ∀ p, f { p with isAlive := false } = f p) (ps : List PlayerState) (k : String) :
    (setDead ps k).map f = ps.map f := by
  unfold setDead
  induction ps with
  | nil => rfl
  | cons p ps ih =>
    simp only [List.map_cons, ih, List.cons.injEq, and_true]
    by_cases h : p.publicKey = k
    · rw [if_pos h]
      exact hf p
    · rw [if_neg h]

theorem killStep_map {α : Type} (f : PlayerState → α)
    (hf : ∀ p, f { p with isAlive := false } = f p) (ps : List PlayerState)
    (a : PlayerState) :
    (killStep ps a).map f = ps.map f := by
  cases hk : killOf a with
  | none => rw [killStep_none ps hk]
  | some t =>
    cases hft : findKey t ps with
    | none => rw [killStep_noTarget ps hk hft]
    | some tgt =>
      by_cases hg : tgt.isAlive = true ∧ a.role.type = RoleType.impostor
          ∧ tgt.role.room = a.role.room
      · rw [killStep_fire ps hk hft hg]
        exact setDead_map f hf ps t
      · rw [killStep_guardFalse ps hk hft hg]

theorem foldl_killStep_map {α : Type} (f : PlayerState → α)
    (hf : ∀ p, f { p with isAlive := false } = f p) :
    ∀ (L cur : List PlayerState), (List.foldl killStep cur L).map f = cur.map f := by
  intro L
  induction L with
  | nil => intro cur; rfl
  | cons a L ih =>
    intro cur
    rw [List.foldl_cons, ih, killStep_map f hf]

theorem findKey_key {k : String} {ps : List PlayerState} {p : PlayerState}
    (h : findKey k ps = some p) : p.publicKey = k := by
  unfold findKey at h
  have h2 := List.find?_some h
  exact of_decide_eq_true h2

theorem findKey_setDead (k t : String) (ps : List PlayerState) :
    findKey k (setDead ps t)
      = (findKey k ps).map
          (fun p => if p.publicKey = t then { p with isAlive := false } else p) := by
  unfold setDead findKey
  rw [List.find?_map]
  have hpred : ((fun p : PlayerState => decide (p.publicKey = k)) ∘
      (fun p => if p.publicKey = t then { p with isAlive := false } else p))
      = fun p : PlayerState => decide (p.publicKey = k) := by
    funext p
    by_cases h : p.publicKey = t <;> simp [h, Function.comp]
  rw [hpred]

theorem findKey_congrData (k : String) :
    ∀ (ps qs : List PlayerState), ps.map dataOf = qs.map dataOf →
      (findKey k ps).map dataOf = (findKey k qs).map dataOf := by
  intro ps
  induction ps with
  | nil =>
    intro qs h
    cases qs with
    | nil => rfl
    | cons q qs => simp at h
  | cons p ps ih =>
    intro qs h
    cases qs with
    | nil => simp at h
    | cons q qs =>
      simp only [List.map_cons, List.cons.injEq] at h
      obtain ⟨h1, h2⟩ := h
      have hkey : p.publicKey = q.publicKey := congrArg Prod.fst h1
      by_cases hc : p.publicKey = k
      · unfold findKey
        rw [@List.find?_cons_of_pos _ (fun x : PlayerState => decide (x.publicKey = k)) p ps
              (decide_eq_true hc),
            @List.find?_cons_of_pos _ (fun x : PlayerState => decide (x.publicKey = k)) q qs
              (decide_eq_true (hkey.symm.trans hc))]
        simp [h1]
      · unfold findKey
        rw [@List.find?_cons_of_neg _ (fun x : PlayerState => decide (x.publicKey = k)) p ps
              (by simpa using hc),
            @List.find?_cons_of_neg _ (fun x : PlayerState => decide (x.publicKey = k)) q qs
              (by simpa using (fun hq => hc (hkey.trans hq) : ¬ q.publicKey = k))]
        exact ih qs h2

theorem killStep_dead {k : String} {cur : List PlayerState} (a : PlayerState)
    (h : (findKey k cur).map (fun p => p.isAlive) = some false) :
    (findKey k (killStep cur a)).map (fun p => p.isAlive) = some false := by
  cases hk : killOf a with
  | none => rw [killStep_none cur hk]; exact h
  | some t =>
    cases hft : findKey t cur with
    | none => rw [killStep_noTarget cur hk hft]; exact h
    | some tgt =>
      by_cases hg : tgt.isAlive = true ∧ a.role.type = RoleType.impostor
          ∧ tgt.role.room = a.role.room
      · rw [killStep_fire cur hk hft hg, findKey_setDead]
        obtain ⟨p, hp, hpd⟩ : ∃ p, findKey k cur = some p ∧ p.isAlive = false := by
          cases hfk : findKey k cur with
          | none => rw [hfk] at h; simp at h
          | some p => rw [hfk] at h; simp at h; exact ⟨p, rfl, h⟩
        rw [hp]
        by_cases hpt : p.publicKey = t <;> simp [hpt, hpd]
      · rw [killStep_guardFalse cur hk hft hg]; exact h

theorem foldl_killStep_dead (k : String) :
    ∀ (L cur : List PlayerState),
      (findKey k cur).map (fun p => p.isAlive) = some false →
      (findKey k (List.foldl killStep cur L)).map (fun p => p.isAlive) = some false := by
  intro L
  induction L with
  | nil => intro cur h; exact h
  | cons a L ih =>
    intro cur h
    rw [List.foldl_cons]
    exact ih (killStep cur a) (killStep_dead a h)

theorem alive_of_killStep {k : String} {cur : List PlayerState} {a q : PlayerState}
    (h : findKey k (killStep cur a) = some q) (hq : q.isAlive = true) :
    ∃ p, findKey k cur = some p ∧ p.isAlive = true := by
  cases hk : killOf a with
  | none => rw [killStep_none cur hk] at h; exact ⟨q, h, hq⟩
  | some t =>
    cases hft : findKey t cur with
    | none => rw [killStep_noTarget cur hk hft] at h; exact ⟨q, h, hq⟩
    | some tgt =>
      by_cases hg : tgt.isAlive = true ∧ a.role.type = RoleType.impostor
          ∧ tgt.role.room = a.role.room
      · rw [killStep_fire cur hk hft hg, findKey_setDead] at h
        cases hfk : findKey k cur with
        | none => rw [hfk] at h; simp at h
        | some p =>
          rw [hfk] at h
          simp only [Option.map_some', Option.some.injEq] at h
          refine ⟨p, rfl, ?_⟩
          by_cases hpt : p.publicKey = t
          · rw [if_pos hpt] at h
            rw [← h] at hq
            simp at hq
          · rw [if_neg hpt] at h
            rw [h]
            exact hq
      · rw [killStep_guardFalse cur hk hft hg] at h; exact ⟨q, h, hq⟩

theorem alive_of_foldl (k : String) :
    ∀ (L cur : List PlayerState) (q : PlayerState),
      findKey k (List.foldl killStep cur L) = some q → q.isAlive = true →
      ∃ p, findKey k cur = some p ∧ p.isAlive = true := by
  intro L
  induction L with
  | nil => intro cur q h hq; exact ⟨q, h, hq⟩
  | cons a L ih =>
    intro cur q h hq
    rw [List.foldl_cons] at h
    obtain ⟨p1, hp1, hp1a⟩ := ih (killStep cur a) q h hq
    exact alive_of_killStep hp1 hp1a

theorem killStep_congrActor (cur : List PlayerState) {a a' : PlayerState}
    (h : dataOf a = dataOf a') : killStep cur a = killStep cur a' := by
  have h1 : a.lastAction = a'.lastAction := congrArg (fun d => d.2.2.1) h
  have h2 : a.role = a'.role := congrArg (fun d => d.2.1) h
  have hka : killOf a = killOf a' := by unfold killOf; rw [h1]
  unfold killStep
  rw [hka, h2]

theorem foldl_killStep_congrActors :
    ∀ (L L' : List PlayerState), L.map dataOf = L'.map dataOf →
      ∀ cur, List.foldl killStep cur L = List.foldl killStep cur L' := by
  intro L
  induction L with
  | nil =>
    intro L' h cur
    cases L' with
    | nil => rfl
    | cons b L' => simp at h
  | cons a L ih =>
    intro L' h cur
    cases L' with
    | nil => simp at h
    | cons b L' =>
      simp only [List.map_cons, List.cons.injEq] at h
      obtain ⟨h1, h2⟩ := h
      rw [List.foldl_cons, List.foldl_cons, killStep_congrActor cur h1]
      exact ih L' h2 (killStep cur b)

theorem killStep_foldl_noop :
    ∀ (L cur : List PlayerState), ∀ a ∈ L,
      killStep (List.foldl killStep cur L) a = List.foldl killStep cur L := by
  intro L
  induction L with
  | nil => intro cur a ha; exact absurd ha (List.not_mem_nil a)
  | cons b L ih =>
    intro cur a ha
    rw [List.foldl_cons]
    rcases List.mem_cons.mp ha with rfl | haL
    · cases hk : killOf a with
      | none => exact killStep_none _ hk
      | some t =>
        cases hft : findKey t (List.foldl killStep (killStep cur a) L) with
        | none => exact killStep_noTarget _ hk hft
        | some tgt =>
          by_cases hg : tgt.isAlive = true ∧ a.role.type = RoleType.impostor
              ∧ tgt.role.room = a.role.room
          · exfalso
            obtain ⟨p1, hp1, hp1a⟩ := alive_of_foldl t L (killStep cur a) tgt hft hg.1
            cases hfc : findKey t cur with
            | none =>
              rw [killStep_noTarget cur hk hfc] at hp1
              rw [hfc] at hp1
              exact Option.noConfusion hp1
            | some tgt0 =>
              by_cases hg0 : tgt0.isAlive = true ∧ a.role.type = RoleType.impostor
                  ∧ tgt0.role.room = a.role.room
              · rw [killStep_fire cur hk hfc hg0, findKey_setDead, hfc] at hp1
                have hkey0 : tgt0.publicKey = t := findKey_key hfc
                simp only [Option.map_some', Option.some.injEq] at hp1
                rw [if_pos hkey0] at hp1
                rw [← hp1] at hp1a
                simp at hp1a
              · rw [killStep_guardFalse cur hk hfc hg0, hfc] at hp1
                have hp1e : tgt0 = p1 := by injection hp1
                have hdata : (List.foldl killStep (killStep cur a) L).map dataOf
                    = cur.map dataOf := by
                  rw [foldl_killStep_map dataOf (fun _ => rfl),
                      killStep_map dataOf (fun _ => rfl)]
                have hcd := findKey_congrData t _ _ hdata
                rw [hft, hfc] at hcd
                simp only [Option.map_some', Option.some.injEq] at hcd
                have hrole : tgt.role = tgt0.role := congrArg (fun d => d.2.1) hcd
                apply hg0
                refine ⟨?_, hg.2.1, ?_⟩
                · rw [hp1e]; exact hp1a
                · rw [← hrole]; exact hg.2.2
          · exact killStep_guardFalse _ hk hft hg
    · exact ih (killStep cur b) a haL

theorem foldl_killStep_id :
    ∀ (L cur : List PlayerState), (∀ a ∈ L, killStep cur a = cur) →
      List.foldl killStep cur L = cur := by
  intro L
  induction L with
  | nil => intro cur _; rfl
  | cons a L ih =>
    intro cur h
    rw [List.foldl_cons, h a (List.mem_cons_self a L)]
    exact ih cur (fun b hb => h b (List.mem_cons_of_mem a hb))

theorem processKills_processKills (s : GameState) :
    processKills (processKills s) = processKills s := by
  have hmain : List.foldl killStep (List.foldl killStep s.players s.players)
      (List.foldl killStep s.players s.players)
      = List.foldl killStep s.players s.players := by
    have hdata : (List.foldl killStep s.players s.players).map dataOf
        = s.players.map dataOf := foldl_killStep_map dataOf (fun _ => rfl) _ _
    rw [foldl_killStep_congrActors _ _ hdata]
    exact foldl_killStep_id _ _ (killStep_foldl_noop s.players s.players)
  simp only [processKills]
  rw [hmain]

/-- The per-key view of the kill pass is unchanged whenever no collected
decision is a host-valid kill of that key: the entry under the key is
untouched by the whole fold. -/
theorem foldl_killStep_invalid_preserved (s : GameState) (k : String) :
    ∀ (L cur : List PlayerState),
      (∀ a ∈ L, validHostKill s a k = false) →
      findKey k cur = findKey k s.players →
      findKey k (List.foldl killStep cur L) = findKey k s.players := by
  intro L
  induction L with
  | nil => intro cur _ hcur; exact hcur
  | cons a L ih =>
    intro cur hL hcur
    rw [List.foldl_cons]
    apply ih (killStep cur a) (fun b hb => hL b (List.mem_cons_of_mem a hb))
    have ha : validHostKill s a k = false := hL a (List.mem_cons_self a L)
    cases hk : killOf a with
    | none => rw [killStep_none cur hk]; exact hcur
    | some t =>
      cases hft : findKey t cur with
      | none => rw [killStep_noTarget cur hk hft]; exact hcur
      | some tgt =>
        by_cases hg : tgt.isAlive = true ∧ a.role.type = RoleType.impostor
            ∧ tgt.role.room = a.role.room
        · rw [killStep_fire cur hk hft hg, findKey_setDead]
          by_cases htk : t = k
          · exfalso
            subst htk
            rw [hcur] at hft
            have : validHostKill s a t = true := by
              unfold validHostKill
              rw [hft]
              simp [hk, hg.1, hg.2.1, hg.2.2]
            rw [this] at ha
            exact Bool.noConfusion ha
          · rw [hcur]
            cases hfs : findKey k s.players with
            | none => rfl
            | some pk =>
              have hkk : pk.publicKey = k := findKey_key hfs
              rw [Option.map_some']
              rw [if_neg (by rw [hkk]; exact fun h => htk h.symm)]
        · rw [killStep_guardFalse cur hk hft hg]; exact hcur

theorem checkWinCondition_frame (s : GameState) :
    (checkWinCondition s).players = s.players
    ∧ (checkWinCondition s).phase = s.phase
    ∧ (checkWinCondition s).currentRound = s.currentRound
    ∧ (checkWinCondition s).actionOrder = s.actionOrder
    ∧ (checkWinCondition s).accusedPlayer = s.accusedPlayer
    ∧ (checkWinCondition s).votingResults = s.votingResults := by
  unfold checkWinCondition
  by_cases h1 : aliveImpostorCount s = 0
  · rw [if_pos h1]
    exact ⟨rfl, rfl, rfl, rfl, rfl, rfl⟩
  · rw [if_neg h1]
    by_cases h2 : aliveCrewCount s = 0
    · rw [if_pos h2]
      exact ⟨rfl, rfl, rfl, rfl, rfl, rfl⟩
    · rw [if_neg h2]
      exact ⟨rfl, rfl, rfl, rfl, rfl, rfl⟩

theorem startRound_frame (shuffle : List String → List String) (s : GameState) :
    (startRound shuffle s).players = s.players
    ∧ (startRound shuffle s).currentRound = s.currentRound
    ∧ (startRound shuffle s).accusedPlayer = s.accusedPlayer
    ∧ (startRound shuffle s).votingResults = s.votingResults
    ∧ (startRound shuffle s).isActive = s.isActive
    ∧ (startRound shuffle s).winner = s.winner := by
  unfold startRound
  by_cases h : s.isActive = false
  · rw [if_pos h]
    exact ⟨rfl, rfl, rfl, rfl, rfl, rfl⟩
  · rw [if_neg h]
    exact ⟨rfl, rfl, rfl, rfl, rfl, rfl⟩

theorem processRound_eq (shuffle : List String → List String) (s : GameState) :
    processRound shuffle s =
      (if (checkWinCondition (clearDecisions (processMovements (processKills s)))).isActive
          = true then
        startRound shuffle
          { checkWinCondition (clearDecisions (processMovements (processKills s))) with
            currentRound :=
              (checkWinCondition (clearDecisions (processMovements (processKills s)))).currentRound
                + 1 }
      else checkWinCondition (clearDecisions (processMovements (processKills s)))) := rfl

theorem processVotes_noResults (shuffle : List String → List String) {s : GameState}
    (h : s.votingResults = none) : processVotes shuffle s = s := by
  unfold processVotes
  rw [h]

theorem processVotes_noAccused (shuffle : List String → List String) {s : GameState}
    (h : s.accusedPlayer = none) : processVotes shuffle s = s := by
  unfold processVotes
  cases hvr : s.votingResults with
  | none => rfl
  | some vr =>
    rw [h]

theorem processVotes_some (shuffle : List String → List String) {s : GameState}
    {vr : List (String × String)} {ap : String}
    (h1 : s.votingResults = some vr) (h2 : s.accusedPlayer = some ap) :
    processVotes shuffle s =
      (if (checkWinCondition
            (match findEjected (countVotes vr) with
             | some e => if e = "skip" then s else { s with players := setDead s.players e }
             | none => s)).isActive = true then
        startRound shuffle
          (checkWinCondition
            (match findEjected (countVotes vr) with
             | some e => if e = "skip" then s else { s with players := setDead s.players e }
             | none => s))
      else
        checkWinCondition
          (match findEjected (countVotes vr) with
           | some e => if e = "skip" then s else { s with players := setDead s.players e }
           | none => s)) := by
  unfold processVotes
  rw [h1, h2]

theorem moveStep_room (p : PlayerState) :
    (moveStep p).role.room =
      (match p.lastMovement with
       | some MovementType.clockwise => (p.role.room + 1) % 6
       | some MovementType.counterclockwise => (p.role.room + 5) % 6
       | some MovementType.stay => p.role.room
       | none => p.role.room) := by
  unfold moveStep
  cases p.lastMovement with
  | none => rfl
  | some m => cases m <;> rfl

theorem moveStep_lastVote (p : PlayerState) : (moveStep p).lastVote = p.lastVote := by
  unfold moveStep
  cases p.lastMovement with
  | none => rfl
  | some m => cases m <;> rfl

theorem moveStep_room_lt (p : PlayerState) (h : p.role.room < 6) :
    (moveStep p).role.room < 6 := by
  rw [moveStep_room]
  cases hm : p.lastMovement with
  | none => exact h
  | some m =>
    cases m with
    | stay => exact h
    | clockwise => exact Nat.mod_lt _ (by omega)
    | counterclockwise => exact Nat.mod_lt _ (by omega)

theorem roomInv_of_map_role_eq {ps qs : List PlayerState}
    (h : qs.map (fun p => p.role) = ps.map (fun p => p.role))
    (hinv : ∀ p ∈ ps, p.role.room < 6) : ∀ p ∈ qs, p.role.room < 6 := by
  intro p hp
  have hmem : p.role ∈ qs.map (fun p => p.role) := List.mem_map_of_mem _ hp
  rw [h] at hmem
  obtain ⟨q, hq, he⟩ := List.mem_map.mp hmem
  rw [← he]
  exact hinv q hq

theorem processRound_players (shuffle : List String → List String) (s : GameState) :
    (processRound shuffle s).players
      = (clearDecisions (processMovements (processKills s))).players := by
  rw [processRound_eq]
  by_cases h : (checkWinCondition (clearDecisions (processMovements (processKills s)))).isActive
      = true
  · rw [if_pos h, (startRound_frame shuffle _).1]
    exact (checkWinCondition_frame _).1
  · rw [if_neg h]
    exact (checkWinCondition_frame _).1

theorem map_lastVote_clear_move (l : List PlayerState) :
    ((l.map moveStep).map
        (fun p => { p with lastAction := none, lastMovement := none })).map
      (fun p => p.lastVote) = l.map (fun p => p.lastVote) := by
  induction l with
  | nil => rfl
  | cons p l ih =>
    simp only [List.map_cons, ih, List.cons.injEq, and_true]
    exact moveStep_lastVote p

/-- Claim C9 (confirmed): the kill-resolution pass of `processRound` is
idempotent: applying it twice to the same batch of collected kill decisions
produces exactly the same alive flags (in fact the same whole state) as
applying it once; a second elimination of an already dead target is a no-op. -/
theorem kill_resolution_idempotent (s : GameState) :
    (processKills (processKills s)).players.map (fun p => (p.publicKey, p.isAlive))
      = (processKills s).players.map (fun p => (p.publicKey, p.isAlive))
    ∧ processKills (processKills s) = processKills s := by
  have h := processKills_processKills s
  exact ⟨by rw [h], h⟩

/-- Claim C6 (corrected): after `processRound` resolves a round, the
`lastAction` and `lastMovement` slots of every participant are cleared, but
`lastVote` is never cleared: it is preserved verbatim for every participant. -/
theorem decision_slots_spec (shuffle : List String → List String) (s : GameState) :
    (∀ p ∈ (processRound shuffle s).players, p.lastAction = none ∧ p.lastMovement = none)
    ∧ (processRound shuffle s).players.map (fun p => p.lastVote)
        = s.players.map (fun p => p.lastVote) := by
  constructor
  · intro p hp
    rw [processRound_players] at hp
    simp only [clearDecisions] at hp
    obtain ⟨q, _, rfl⟩ := List.mem_map.mp hp
    exact ⟨rfl, rfl⟩
  · rw [processRound_players]
    show (((s.players.foldl killStep s.players).map moveStep).map
        (fun p => { p with lastAction := none, lastMovement := none })).map
      (fun p => p.lastVote) = s.players.map (fun p => p.lastVote)
    rw [map_lastVote_clear_move]
    exact foldl_killStep_map (fun p => p.lastVote) (fun _ => rfl) s.players s.players

/-- Claim C5 (corrected): `votingResults` is reset to empty and `accusedPlayer`
set when the voting phase begins (`startVotingPhase`), but `processVotes` does
not clear them: both fields are preserved verbatim by vote resolution. -/
theorem voting_reset_spec (shuffle : List String → List String) (s : GameState)
    (a : String) :
    (startVotingPhase s a).votingResults = some []
    ∧ (startVotingPhase s a).accusedPlayer = some a
    ∧ (startVotingPhase s a).phase = Phase.voting
    ∧ (processVotes shuffle s).accusedPlayer = s.accusedPlayer
    ∧ (processVotes shuffle s).votingResults = s.votingResults := by
  have hpv : (processVotes shuffle s).accusedPlayer = s.accusedPlayer
      ∧ (processVotes shuffle s).votingResults = s.votingResults := by
    cases hvr : s.votingResults with
    | none =>
      rw [processVotes_noResults shuffle hvr]
      exact ⟨rfl, hvr⟩
    | some vr =>
      cases hap : s.accusedPlayer with
      | none =>
        rw [processVotes_noAccused shuffle hap]
        exact ⟨hap, hvr⟩
      | some ap =>
        rw [processVotes_some shuffle hvr hap]
        set s1 : GameState :=
          (match findEjected (countVotes vr) with
           | some e => if e = "skip" then s else { s with players := setDead s.players e }
           | none => s) with hs1
        have hs1f : s1.accusedPlayer = s.accusedPlayer
            ∧ s1.votingResults = s.votingResults := by
          rw [hs1]
          cases findEjected (countVotes vr) with
          | none => exact ⟨rfl, rfl⟩
          | some e =>
            dsimp only
            by_cases he : e = "skip"
            · rw [if_pos he]
              exact ⟨rfl, rfl⟩
            · rw [if_neg he]
              exact ⟨rfl, rfl⟩
        by_cases hac : (checkWinCondition s1).isActive = true
        · rw [if_pos hac]
          constructor
          · rw [(startRound_frame shuffle _).2.2.1,
                (checkWinCondition_frame s1).2.2.2.2.1, hs1f.1]
            exact hap
          · rw [(startRound_frame shuffle _).2.2.2.1,
                (checkWinCondition_frame s1).2.2.2.2.2, hs1f.2]
            exact hvr
        · rw [if_neg hac]
          constructor
          · rw [(checkWinCondition_frame s1).2.2.2.2.1, hs1f.1]
            exact hap
          · rw [(checkWinCondition_frame s1).2.2.2.2.2, hs1f.2]
            exact hvr
  exact ⟨rfl, rfl, rfl, hpv.1, hpv.2⟩

/-- Claim C3 (corrected): for a live, winnerless state, `checkWinCondition`
awards the crew the win exactly when no impostor is alive; it awards the
impostors the win exactly when some impostor is alive and no crew is alive —
not merely when no crew is alive, because the crew branch is checked first and
wins the all-dead tie; otherwise the state is unchanged. -/
theorem win_condition_characterisation (s : GameState)
    (h1 : s.isActive = true) (h2 : s.winner = none) :
    (((checkWinCondition s).isActive = false
        ∧ (checkWinCondition s).winner = some Winner.crew)
      ↔ aliveImpostorCount s = 0)
    ∧ (((checkWinCondition s).isActive = false
        ∧ (checkWinCondition s).winner = some Winner.impostors)
      ↔ (¬ aliveImpostorCount s = 0 ∧ aliveCrewCount s = 0))
    ∧ ((¬ aliveImpostorCount s = 0 ∧ ¬ aliveCrewCount s = 0) →
        checkWinCondition s = s) := by
  unfold checkWinCondition
  by_cases hi : aliveImpostorCount s = 0
  · rw [if_pos hi]
    refine ⟨?_, ?_, ?_⟩
    · simp [hi]
    · simp [hi]
    · intro h
      exact absurd hi h.1
  · rw [if_neg hi]
    by_cases hc : aliveCrewCount s = 0
    · rw [if_pos hc]
      refine ⟨?_, ?_, ?_⟩
      · simp [hi]
      · simp [hi, hc]
      · intro h
        exact absurd hc h.2
    · rw [if_neg hc]
      refine ⟨?_, ?_, ?_⟩
      · simp [h1, h2, hi]
      · simp [h1, h2, hi, hc]
      · intro _
        rfl

theorem startRound_phase_active (shuffle : List String → List String) {s : GameState}
    (h : s.isActive = true) : (startRound shuffle s).phase = Phase.action := by
  have hne : ¬ s.isActive = false := by
    rw [h]
    exact Bool.noConfusion
  unfold startRound
  rw [if_neg hne]

theorem processRound_phase (shuffle : List String → List String) (s : GameState) :
    ((processRound shuffle s).isActive = true
      ∧ (processRound shuffle s).phase = Phase.action)
    ∨ ((processRound shuffle s).isActive = false
      ∧ (processRound shuffle s).phase = s.phase) := by
  rw [processRound_eq]
  set s2 := checkWinCondition (clearDecisions (processMovements (processKills s))) with hs2
  have hphase : s2.phase = s.phase := by
    rw [hs2, (checkWinCondition_frame _).2.1]
    rfl
  by_cases h : s2.isActive = true
  · rw [if_pos h]
    left
    have hact : ({ s2 with currentRound := s2.currentRound + 1 } : GameState).isActive
        = true := h
    constructor
    · rw [(startRound_frame shuffle _).2.2.2.2.1]
      exact hact
    · exact startRound_phase_active shuffle hact
  · rw [if_neg h]
    right
    have hfalse : s2.isActive = false := by
      cases hb : s2.isActive
      · rfl
      · exact absurd hb h
    exact ⟨hfalse, hphase⟩

theorem processVotes_phase (shuffle : List String → List String) (s : GameState) :
    processVotes shuffle s = s
    ∨ ((processVotes shuffle s).isActive = true
      ∧ (processVotes shuffle s).phase = Phase.action)
    ∨ ((processVotes shuffle s).isActive = false
      ∧ (processVotes shuffle s).phase = s.phase) := by
  cases hvr : s.votingResults with
  | none => exact Or.inl (processVotes_noResults shuffle hvr)
  | some vr =>
    cases hap : s.accusedPlayer with
    | none => exact Or.inl (processVotes_noAccused shuffle hap)
    | some ap =>
      right
      rw [processVotes_some shuffle hvr hap]
      set s1 : GameState :=
        (match findEjected (countVotes vr) with
         | some e => if e = "skip" then s else { s with players := setDead s.players e }
         | none => s) with hs1
      have hph : s1.phase = s.phase := by
        rw [hs1]
        cases findEjected (countVotes vr) with
        | none => rfl
        | some e =>
          dsimp only
          by_cases he : e = "skip"
          · rw [if_pos he]
          · rw [if_neg he]
      by_cases hac : (checkWinCondition s1).isActive = true
      · rw [if_pos hac]
        left
        constructor
        · rw [(startRound_frame shuffle _).2.2.2.2.1]
          exact hac
        · exact startRound_phase_active shuffle hac
      · rw [if_neg hac]
        right
        have hfalse : (checkWinCondition s1).isActive = false := by
          cases hb : (checkWinCondition s1).isActive
          · rfl
          · exact absurd hb hac
        refine ⟨hfalse, ?_⟩
        rw [(checkWinCondition_frame s1).2.1, hph]

/-- Claim C4 (corrected): the phase field is only ever assigned the values
action, movement and voting; the terminal value complete is never assigned.
When a winner is found at a movement- or voting-phase expiry the game is
deactivated with the phase left at its pre-resolution value (not set to
complete); when no winner is found the machine returns to the action phase
(or, for `processVotes`, performs its guard early-return unchanged). -/
theorem phase_transition_spec (shuffle : List String → List String) (s : GameState)
    (a : String) :
    ((processRound shuffle s).isActive = true →
        (processRound shuffle s).phase = Phase.action)
    ∧ ((processRound shuffle s).isActive = false →
        (processRound shuffle s).phase = s.phase)
    ∧ ((processVotes shuffle s).isActive = true →
        (processVotes shuffle s).phase = Phase.action ∨ processVotes shuffle s = s)
    ∧ ((processVotes shuffle s).isActive = false →
        (processVotes shuffle s).phase = s.phase)
    ∧ (startMovementPhase s).phase = Phase.movement
    ∧ (startVotingPhase s a).phase = Phase.voting
    ∧ (¬ s.phase = Phase.complete →
        ¬ (processRound shuffle s).phase = Phase.complete
        ∧ ¬ (processVotes shuffle s).phase = Phase.complete) := by
  refine ⟨?_, ?_, ?_, ?_, rfl, rfl, ?_⟩
  · intro h
    rcases processRound_phase shuffle s with ⟨_, hp⟩ | ⟨hf, _⟩
    · exact hp
    · rw [hf] at h
      exact Bool.noConfusion h
  · intro h
    rcases processRound_phase shuffle s with ⟨ht, _⟩ | ⟨_, hp⟩
    · rw [ht] at h
      exact Bool.noConfusion h
    · exact hp
  · intro h
    rcases processVotes_phase shuffle s with he | ⟨_, hp⟩ | ⟨hf, _⟩
    · exact Or.inr he
    · exact Or.inl hp
    · rw [hf] at h
      exact Bool.noConfusion h
  · intro h
    rcases processVotes_phase shuffle s with he | ⟨ht, _⟩ | ⟨_, hp⟩
    · rw [he]
    · rw [ht] at h
      exact Bool.noConfusion h
    · exact hp
  · intro hc
    constructor
    · rcases processRound_phase shuffle s with ⟨_, hp⟩ | ⟨_, hp⟩
      · rw [hp]
        intro hx
        exact Phase.noConfusion hx
      · rw [hp]
        exact hc
    · rcases processVotes_phase shuffle s with he | ⟨_, hp⟩ | ⟨_, hp⟩
      · rw [he]
        exact hc
      · rw [hp]
        intro hx
        exact Phase.noConfusion hx
      · rw [hp]
        exact hc

/-- Claim C1 (corrected): the host's kill resolution validates only that the
target exists, is alive and is co-located and that the actor is an impostor
(any decision failing those host checks leaves the target's alive flag
unchanged), and host acceptance downgrades a kill from a non-impostor to pass;
the target-is-not-self and target-is-not-impostor rules are enforced only in
the player-side client's `validateAction`, which rejects a kill on the first
listed player (its self check), on a target whose visible role is impostor,
and on a target not listed as alive and co-located. -/
theorem kill_validation_split (s : GameState) (k : String) (view : PlayerView)
    (act t : String) :
    ((∀ a ∈ s.players, validHostKill s a k = false) →
      aliveByKey (processKills s) k = aliveByKey s k)
    ∧ (∀ (p : PlayerState) (d : PlayerAction), d.type = ActionType.kill →
        ¬ p.role.type = RoleType.impostor → (acceptAction p d).type = ActionType.pass)
    ∧ (∀ p0, view.players.head? = some p0 → validateAction act p0.publicKey view = false)
    ∧ (∀ tp, findKeyView t view.players = some tp → tp.role = some RoleType.impostor →
        validateAction "kill" t view = false)
    ∧ ((view.players.any (fun p =>
          decide (p.publicKey = t) &&
          (match view.yourRole with
           | some r => decide (p.room = r.room)
           | none => false) && p.isAlive)) = false →
        validateAction "kill" t view = false) := by
  refine ⟨?_, ?_, ?_, ?_, ?_⟩
  · intro h
    unfold aliveByKey
    have hpres := foldl_killStep_invalid_preserved s k s.players s.players h rfl
    show ((findKey k (s.players.foldl killStep s.players)).map fun p => p.isAlive) = _
    rw [hpres]
  · intro p d hd hp
    unfold acceptAction
    rw [if_pos ⟨hd, hp⟩]
  · intro p0 h0
    simp [validateAction, h0]
  · intro tp htp hrole
    simp only [validateAction, htp, hrole]
    cases hh : view.players.head? with
    | none => simp
    | some p0 =>
      by_cases hteq : t = p0.publicKey
      · simp [hteq]
      · simp [hteq]
  · intro hany
    simp only [validateAction, hany]
    cases hh : view.players.head? with
    | none =>
      by_cases himp : (match findKeyView t view.players with
          | some tp => decide (tp.role = some RoleType.impostor)
          | none => false) = true
      · simp [himp]
      · simp [himp, hany]
    | some p0 =>
      by_cases hteq : t = p0.publicKey
      · simp [hteq]
      · by_cases himp : (match findKeyView t view.players with
            | some tp => decide (tp.role = some RoleType.impostor)
            | none => false) = true
        · simp [hteq, himp]
        · simp [hteq, himp, hany]

theorem processVotes_players (shuffle : List String → List String) (s : GameState) :
    (processVotes shuffle s).players = s.players
    ∨ ∃ e, (processVotes shuffle s).players = setDead s.players e := by
  cases hvr : s.votingResults with
  | none => exact Or.inl (by rw [processVotes_noResults shuffle hvr])
  | some vr =>
    cases hap : s.accusedPlayer with
    | none => exact Or.inl (by rw [processVotes_noAccused shuffle hap])
    | some ap =>
      rw [processVotes_some shuffle hvr hap]
      set s1 : GameState :=
        (match findEjected (countVotes vr) with
         | some e => if e = "skip" then s else { s with players := setDead s.players e }
         | none => s) with hs1
      have hres : ∀ X : GameState, X.players = s1.players →
          X.players = s.players ∨ ∃ e, X.players = setDead s.players e := by
        intro X hX
        rw [hs1] at hX
        revert hX
        cases findEjected (countVotes vr) with
        | none => exact fun hX => Or.inl hX
        | some e =>
          dsimp only
          by_cases he : e = "skip"
          · rw [if_pos he]
            exact fun hX => Or.inl hX
          · rw [if_neg he]
            exact fun hX => Or.inr ⟨e, hX⟩
      by_cases hac : (checkWinCondition s1).isActive = true
      · rw [if_pos hac]
        exact hres _ (by rw [(startRound_frame shuffle _).1, (checkWinCondition_frame s1).1])
      · rw [if_neg hac]
        exact hres _ (checkWinCondition_frame s1).1

theorem roomInv_processMovements {s : GameState} (h : RoomInv s) :
    RoomInv (processMovements s) := by
  intro p hp
  obtain ⟨q, hq, rfl⟩ := List.mem_map.mp hp
  exact moveStep_room_lt q (h q hq)

theorem roomInv_processKills {s : GameState} (h : RoomInv s) :
    RoomInv (processKills s) :=
  roomInv_of_map_role_eq
    (foldl_killStep_map (fun p => p.role) (fun _ => rfl) s.players s.players) h

theorem roomInv_clearDecisions {s : GameState} (h : RoomInv s) :
    RoomInv (clearDecisions s) := by
  intro p hp
  obtain ⟨q, hq, rfl⟩ := List.mem_map.mp hp
  exact h q hq

theorem roomInv_setDead {ps : List PlayerState} (e : String)
    (h : ∀ p ∈ ps, p.role.room < 6) : ∀ p ∈ setDead ps e, p.role.room < 6 :=
  roomInv_of_map_role_eq (setDead_map (fun p => p.role) (fun _ => rfl) ps e) h

theorem roomInv_processRound (shuffle : List String → List String) {s : GameState}
    (h : RoomInv s) : RoomInv (processRound shuffle s) := by
  intro p hp
  rw [processRound_players] at hp
  exact roomInv_clearDecisions (roomInv_processMovements (roomInv_processKills h)) p hp

theorem roomInv_processVotes (shuffle : List String → List String) {s : GameState}
    (h : RoomInv s) : RoomInv (processVotes shuffle s) := by
  intro p hp
  rcases processVotes_players shuffle s with he | ⟨e, he⟩
  · rw [he] at hp
    exact h p hp
  · rw [he] at hp
    exact roomInv_setDead e h p hp

/-- Claim C8 (confirmed): the movement pass updates every participant's room
by +1 mod 6 for clockwise, +5 mod 6 (that is, -1 mod 6) for counterclockwise,
and leaves it unchanged for stay or an absent movement, uniformly for alive
and dead participants; and the room-range invariant `[0, 6)` is preserved by
every modelled operation on the state. -/
theorem movement_resolution_spec (shuffle : List String → List String) (ac : String)
    (s : GameState) :
    (processMovements s).players.length = s.players.length
    ∧ (∀ (i : Nat) (h1 : i < (processMovements s).players.length)
        (h2 : i < s.players.length),
        ((processMovements s).players.get ⟨i, h1⟩).role.room =
          (match (s.players.get ⟨i, h2⟩).lastMovement with
           | some MovementType.clockwise => ((s.players.get ⟨i, h2⟩).role.room + 1) % 6
           | some MovementType.counterclockwise =>
              ((s.players.get ⟨i, h2⟩).role.room + 5) % 6
           | some MovementType.stay => (s.players.get ⟨i, h2⟩).role.room
           | none => (s.players.get ⟨i, h2⟩).role.room))
    ∧ (RoomInv s → RoomInv (processMovements s) ∧ RoomInv (processKills s)
        ∧ RoomInv (clearDecisions s) ∧ RoomInv (checkWinCondition s)
        ∧ RoomInv (startRound shuffle s) ∧ RoomInv (startMovementPhase s)
        ∧ RoomInv (startVotingPhase s ac) ∧ RoomInv (processRound shuffle s)
        ∧ RoomInv (processVotes shuffle s)) := by
  refine ⟨by simp [processMovements], ?_, ?_⟩
  · intro i h1 h2
    show ((s.players.map moveStep).get ⟨i, h1⟩).role.room = _
    rw [List.get_map]
    exact moveStep_room _
  · intro h
    refine ⟨roomInv_processMovements h, roomInv_processKills h, roomInv_clearDecisions h,
        ?_, ?_, h, h, roomInv_processRound shuffle h, roomInv_processVotes shuffle h⟩
    · intro p hp
      rw [(checkWinCondition_frame s).1] at hp
      exact h p hp
    · intro p hp
      rw [(startRound_frame shuffle s).1] at hp
      exact h p hp

/-- The list of players produced by the role-assignment loop when no key
collides: one record per shuffled index. -/
def rolesMap (rooms : Nat → Fin 6) : List String → Nat → List PlayerState
  | [], _ => []
  | pk :: rest, idx => rolesPlayer rooms pk idx :: rolesMap rooms rest (idx + 1)

theorem mapSet_fresh (ps : List PlayerState) (p : PlayerState)
    (h : ∀ q ∈ ps, ¬ q.publicKey = p.publicKey) : mapSet ps p = ps ++ [p] := by
  unfold mapSet
  rw [if_neg]
  intro hany
  obtain ⟨q, hq, hd⟩ := List.any_eq_true.mp hany
  exact h q hq (of_decide_eq_true hd)

theorem assignRolesAux_eq (rooms : Nat → Fin 6) :
    ∀ (l : List String) (idx : Nat) (acc : List PlayerState),
      l.Nodup → (∀ k ∈ l, ∀ q ∈ acc, ¬ q.publicKey = k) →
      assignRolesAux rooms l idx acc = acc ++ rolesMap rooms l idx := by
  intro l
  induction l with
  | nil =>
    intro idx acc _ _
    show acc = acc ++ rolesMap rooms [] idx
    rw [show rolesMap rooms [] idx = [] from rfl, List.append_nil]
  | cons pk rest ih =>
    intro idx acc hnd hfresh
    have hstep : assignRolesAux rooms (pk :: rest) idx acc
        = assignRolesAux rooms rest (idx + 1) (mapSet acc (rolesPlayer rooms pk idx)) := rfl
    rw [hstep,
        mapSet_fresh acc _ (fun q hq => hfresh pk (List.mem_cons_self pk rest) q hq)]
    have hfresh2 : ∀ k ∈ rest, ∀ q ∈ acc ++ [rolesPlayer rooms pk idx], ¬ q.publicKey = k := by
      intro k hk q hq
      rcases List.mem_append.mp hq with hq | hq
      · exact hfresh k (List.mem_cons_of_mem pk hk) q hq
      · have hqe : q = rolesPlayer rooms pk idx := by
          cases hq with
          | head => rfl
          | tail _ hq2 => exact absurd hq2 (List.not_mem_nil q)
        rw [hqe]
        show ¬ pk = k
        intro he
        exact (List.nodup_cons.mp hnd).1 (he ▸ hk)
    rw [ih (idx + 1) (acc ++ [rolesPlayer rooms pk idx]) (List.nodup_cons.mp hnd).2 hfresh2]
    rw [List.append_assoc]
    rfl

theorem rolesMap_length (rooms : Nat → Fin 6) :
    ∀ (l : List String) (idx : Nat), (rolesMap rooms l idx).length = l.length := by
  intro l
  induction l with
  | nil => intro idx; rfl
  | cons pk rest ih =>
    intro idx
    show (rolesMap rooms rest (idx + 1)).length + 1 = rest.length + 1
    rw [ih]

theorem countImpostors_rolesMap (rooms : Nat → Fin 6) :
    ∀ (l : List String) (idx : Nat),
      countImpostors (rolesMap rooms l idx) = min (2 - idx) l.length := by
  intro l
  induction l with
  | nil => intro idx; simp [rolesMap, countImpostors]
  | cons pk rest ih =>
    intro idx
    by_cases h : idx < 2
    · have hrole : (rolesPlayer rooms pk idx).role.type = RoleType.impostor := by
        unfold rolesPlayer
        dsimp only
        rw [if_pos h]
      show countImpostors (rolesPlayer rooms pk idx :: rolesMap rooms rest (idx + 1))
          = min (2 - idx) (rest.length + 1)
      unfold countImpostors
      rw [@List.filter_cons_of_pos _ (fun p : PlayerState => decide (p.role.type = RoleType.impostor))
            (rolesPlayer rooms pk idx) (rolesMap rooms rest (idx + 1)) (decide_eq_true hrole)]
      have := ih (idx + 1)
      unfold countImpostors at this
      simp only [List.length_cons, this]
      omega
    · have hrole : (rolesPlayer rooms pk idx).role.type = RoleType.crewmate := by
        unfold rolesPlayer
        dsimp only
        rw [if_neg h]
      show countImpostors (rolesPlayer rooms pk idx :: rolesMap rooms rest (idx + 1))
          = min (2 - idx) (rest.length + 1)
      unfold countImpostors
      rw [@List.filter_cons_of_neg _ (fun p : PlayerState => decide (p.role.type = RoleType.impostor))
            (rolesPlayer rooms pk idx) (rolesMap rooms rest (idx + 1)) (by
        intro hd
        have hx := of_decide_eq_true hd
        rw [hrole] at hx
        exact RoleType.noConfusion hx)]
      have hih := ih (idx + 1)
      unfold countImpostors at hih
      rw [hih]
      omega

theorem countImpostors_add_countCrew (ps : List PlayerState) :
    countImpostors ps + countCrew ps = ps.length := by
  induction ps with
  | nil => rfl
  | cons p ps ih =>
    unfold countImpostors countCrew
    unfold countImpostors countCrew at ih
    cases hp : p.role.type with
    | impostor =>
      rw [@List.filter_cons_of_pos _ (fun p : PlayerState => decide (p.role.type = RoleType.impostor))
            p ps (decide_eq_true hp),
          @List.filter_cons_of_neg _ (fun p : PlayerState => decide (p.role.type = RoleType.crewmate))
            p ps (by
        intro hd
        have hx := of_decide_eq_true hd
        rw [hp] at hx
        exact RoleType.noConfusion hx)]
      simp only [List.length_cons]
      omega
    | crewmate =>
      rw [@List.filter_cons_of_neg _ (fun p : PlayerState => decide (p.role.type = RoleType.impostor))
            p ps (by
        intro hd
        have hx := of_decide_eq_true hd
        rw [hp] at hx
        exact RoleType.noConfusion hx),
          @List.filter_cons_of_pos _ (fun p : PlayerState => decide (p.role.type = RoleType.crewmate))
            p ps (decide_eq_true hp)]
      simp only [List.length_cons]
      omega

theorem rolesMap_fields (rooms : Nat → Fin 6) :
    ∀ (l : List String) (idx : Nat), ∀ p ∈ rolesMap rooms l idx,
      p.isAlive = true ∧ p.role.room < 6 := by
  intro l
  induction l with
  | nil =>
    intro idx p hp
    exact absurd hp (List.not_mem_nil p)
  | cons pk rest ih =>
    intro idx p hp
    cases hp with
    | head => exact ⟨rfl, (rooms idx).isLt⟩
    | tail _ hp2 => exact ih (idx + 1) p hp2

theorem padWithBotsAux_length :
    ∀ (n : Nat) (l : List String), 6 - l.length ≤ n → 6 ≤ (padWithBotsAux n l).length := by
  intro n
  induction n with
  | zero =>
    intro l h
    show 6 ≤ l.length
    omega
  | succ n ih =>
    intro l h
    have hunf : padWithBotsAux (n + 1) l
        = if l.length < 6 then padWithBotsAux n (l ++ [botName (l.length + 1)]) else l := rfl
    by_cases hl : l.length < 6
    · rw [hunf, if_pos hl]
      apply ih
      simp only [List.length_append, List.length_cons, List.length_nil]
      omega
    · rw [hunf, if_neg hl]
      omega

theorem padWithBots_length (l : List String) : 6 ≤ (padWithBots l).length :=
  padWithBotsAux_length 6 l (by omega)

/-- Claim C7 (corrected): for a candidate list whose padded pool (candidates
plus synthetic bot seats up to the minimum of 6) contains no duplicate ids,
any shuffle outcome of role assignment yields at least 6 participants of whom
exactly 2 hold the impostor role and all others the crewmate role, every
participant alive with a room index in `[0, 6)`.  Without the no-duplicate
hypothesis the guarantee fails, because the players map deduplicates by key
and a later crew assignment can overwrite an earlier impostor assignment. -/
theorem role_assignment_spec (cands shuffled : List String) (rooms : Nat → Fin 6)
    (hperm : shuffled.Perm (padWithBots cands)) (hnd : shuffled.Nodup) :
    6 ≤ (assignRoles shuffled rooms).length
    ∧ countImpostors (assignRoles shuffled rooms) = 2
    ∧ countCrew (assignRoles shuffled rooms) = (assignRoles shuffled rooms).length - 2
    ∧ ∀ p ∈ assignRoles shuffled rooms, p.isAlive = true ∧ p.role.room < 6 := by
  have hlen6 : 6 ≤ shuffled.length := by
    rw [hperm.length_eq]
    exact padWithBots_length cands
  have heq : assignRoles shuffled rooms = rolesMap rooms shuffled 0 := by
    unfold assignRoles
    rw [assignRolesAux_eq rooms shuffled 0 [] hnd
        (fun k _ q hq => absurd hq (List.not_mem_nil q))]
    rfl
  rw [heq]
  have hlen : (rolesMap rooms shuffled 0).length = shuffled.length :=
    rolesMap_length rooms shuffled 0
  have himp : countImpostors (rolesMap rooms shuffled 0) = 2 := by
    rw [countImpostors_rolesMap rooms shuffled 0]
    omega
  refine ⟨by omega, himp, ?_, rolesMap_fields rooms shuffled 0⟩
  have hsum := countImpostors_add_countCrew (rolesMap rooms shuffled 0)
  omega

/-- Claim C10 (confirmed): a synthetic (bot) impostor never produces a kill:
in every view `getPlayerView` builds for an impostor viewer, every player
record carries a present (non-absent) role field, so the bot policy's
candidate-target filter — which requires the role field to be absent —
is empty, and the bot's action decision is pass for every random draw. -/
theorem bot_impostor_never_kills (s : GameState) (k : String) (p : PlayerState)
    (h1 : findKey k s.players = some p) (h2 : p.role.type = RoleType.impostor)
    (wantsKill : Bool) (pick : Nat) :
    (∀ q ∈ (getPlayerView s k).players, ¬ q.role = none)
    ∧ makeBotActionDecision (getPlayerView s k) wantsKill pick
        = BotActionDecision.pass := by
  have hview : (getPlayerView s k).players
      = s.players.map (fun q =>
          { publicKey := q.publicKey, isAlive := q.isAlive, room := q.role.room,
            role := some q.role.type, lastAction := q.lastAction,
            lastVote := q.lastVote }) := by
    simp [getPlayerView, h1, h2]
  have hyour : (getPlayerView s k).yourRole = some p.role := by
    simp [getPlayerView, h1]
  constructor
  · intro q hq
    rw [hview] at hq
    obtain ⟨q0, _, rfl⟩ := List.mem_map.mp hq
    simp
  · have hfilter : (getPlayerView s k).players.filter
        (fun q => q.isAlive && decide (q.room = p.role.room) && decide (q.role = none))
        = [] := by
      rw [List.filter_eq_nil]
      intro q hq
      rw [hview] at hq
      obtain ⟨q0, _, rfl⟩ := List.mem_map.mp hq
      simp
    unfold makeBotActionDecision
    rw [hyour]
    dsimp only
    by_cases hcond : p.role.type = RoleType.impostor ∧ wantsKill = true
    · rw [if_pos hcond]
      rw [dif_neg (by
        intro hlt
        rw [hfilter] at hlt
        simp at hlt)]
    · rw [if_neg hcond]

/-- A state in which impostor A has collected a kill on co-located fellow
impostor B: the decision is invalid under the spec's validation rules. -/
def c1CounterState : GameState :=
  { players :=
      [ { publicKey := "A", role := { type := RoleType.impostor, room := 0 },
          isAlive := true,
          lastAction := some { type := ActionType.kill, target := some "B" } },
        { publicKey := "B", role := { type := RoleType.impostor, room := 0 },
          isAlive := true },
        { publicKey := "C", role := { type := RoleType.crewmate, room := 1 },
          isAlive := true } ],
    phase := Phase.movement, currentRound := 1, actionOrder := [], isActive := true }

/-- Counterexample to claim C1 as stated: the collected kill of impostor A on
fellow impostor B violates the target-is-not-impostor validation rule, yet
resolving the batch flips B's alive flag to false instead of leaving it
unchanged — the host never checks the target's faction (nor self-targeting). -/
theorem kill_validation_counterexample :
    aliveByKey c1CounterState "B" = some true
    ∧ (findKey "B" c1CounterState.players).map (fun p => p.role.type)
        = some RoleType.impostor
    ∧ (findKey "A" c1CounterState.players).map killOf = some (some "B")
    ∧ aliveByKey (processKills c1CounterState) "B" = some false := by decide

/-- A state whose only collected kill (impostor A on impostor B) fails the
host's co-location check, so the host leaves B untouched. -/
def c1WitnessState : GameState :=
  { players :=
      [ { publicKey := "A", role := { type := RoleType.impostor, room := 0 },
          isAlive := true,
          lastAction := some { type := ActionType.kill, target := some "B" } },
        { publicKey := "B", role := { type := RoleType.impostor, room := 1 },
          isAlive := true } ],
    phase := Phase.movement, currentRound := 1, actionOrder := [], isActive := true }

def c1WitnessView : PlayerView := getPlayerView c1WitnessState "A"

def c1WitnessEntryA : PlayerViewEntry :=
  { publicKey := "A", isAlive := true, room := 0, role := some RoleType.impostor,
    lastAction := some { type := ActionType.kill, target := some "B" },
    lastVote := none }

def c1WitnessEntryB : PlayerViewEntry :=
  { publicKey := "B", isAlive := true, room := 1, role := some RoleType.impostor,
    lastAction := none, lastVote := none }

def c1WitnessCrew : PlayerState :=
  { publicKey := "C", role := { type := RoleType.crewmate, room := 2 }, isAlive := true }

theorem kill_validation_witness :
    aliveByKey (processKills c1WitnessState) "B" = aliveByKey c1WitnessState "B"
    ∧ (acceptAction c1WitnessCrew
        { type := ActionType.kill, target := some "A" }).type = ActionType.pass
    ∧ validateAction "kill" "A" c1WitnessView = false
    ∧ validateAction "kill" "B" c1WitnessView = false
    ∧ validateAction "kill" "Z" c1WitnessView = false := by
  refine ⟨?_, ?_, ?_, ?_, ?_⟩
  · exact (kill_validation_split c1WitnessState "B" c1WitnessView "kill" "B").1 (by decide)
  · exact (kill_validation_split c1WitnessState "B" c1WitnessView "kill" "B").2.1
      c1WitnessCrew { type := ActionType.kill, target := some "A" } rfl (by decide)
  · exact (kill_validation_split c1WitnessState "B" c1WitnessView "kill" "B").2.2.1
      c1WitnessEntryA (by decide)
  · exact (kill_validation_split c1WitnessState "B" c1WitnessView "kill" "B").2.2.2.1
      c1WitnessEntryB (by decide) (by decide)
  · exact (kill_validation_split c1WitnessState "B" c1WitnessView "kill" "Z").2.2.2.2
      (by decide)

/-- A voting state with a 1-1 tie between targets A and B. -/
def c2VoteState : GameState :=
  { players :=
      [ { publicKey := "A", role := { type := RoleType.crewmate, room := 0 },
          isAlive := true },
        { publicKey := "B", role := { type := RoleType.crewmate, room := 0 },
          isAlive := true },
        { publicKey := "v1", role := { type := RoleType.crewmate, room := 1 },
          isAlive := true },
        { publicKey := "v2", role := { type := RoleType.impostor, room := 2 },
          isAlive := true },
        { publicKey := "v3", role := { type := RoleType.impostor, room := 2 },
          isAlive := true } ],
    phase := Phase.voting, currentRound := 1, actionOrder := [],
    accusedPlayer := some "A", votingResults := some [("v1", "A"), ("v2", "B")],
    isActive := true }

/-- Claim C2 (code bug), evaluated at the failing input: with votes
`A:1, B:1` among two voters the maximum search keeps the first target whose
count strictly exceeds the running maximum, so A is ejected — although the
counts are tied and the documented behaviour is that a tie ejects no one. -/
theorem vote_tie_code_bug :
    tallyGet (countVotes [("v1", "A"), ("v2", "B")]) "A" = 1
    ∧ tallyGet (countVotes [("v1", "A"), ("v2", "B")]) "B" = 1
    ∧ c2VoteState.votingResults = some [("v1", "A"), ("v2", "B")]
    ∧ aliveByKey c2VoteState "A" = some true
    ∧ findEjected (countVotes [("v1", "A"), ("v2", "B")]) = some "A"
    ∧ aliveByKey (processVotes (fun l => l) c2VoteState) "A" = some false := by decide

/-- A live, winnerless state in which every participant is dead. -/
def c3AllDeadState : GameState :=
  { players :=
      [ { publicKey := "A", role := { type := RoleType.impostor, room := 0 },
          isAlive := false },
        { publicKey := "B", role := { type := RoleType.crewmate, room := 0 },
          isAlive := false } ],
    phase := Phase.movement, currentRound := 1, actionOrder := [], isActive := true }

/-- Counterexample to claim C3 as stated: with the alive crew count zero (all
participants dead), the claim's iff forces `winner = impostors`, but the code
checks the crew condition first and awards crew the win. -/
theorem win_condition_counterexample :
    aliveCrewCount c3AllDeadState = 0
    ∧ c3AllDeadState.isActive = true
    ∧ c3AllDeadState.winner = none
    ∧ ¬ (checkWinCondition c3AllDeadState).winner = some Winner.impostors
    ∧ (checkWinCondition c3AllDeadState).winner = some Winner.crew := by decide

/-- A live state in which the last crew member is dead but an impostor lives. -/
def c3WitnessState : GameState :=
  { players :=
      [ { publicKey := "A", role := { type := RoleType.impostor, room := 0 },
          isAlive := true },
        { publicKey := "B", role := { type := RoleType.crewmate, room := 0 },
          isAlive := false } ],
    phase := Phase.movement, currentRound := 1, actionOrder := [], isActive := true }

theorem win_condition_witness :
    ((checkWinCondition c3WitnessState).isActive = false
      ∧ (checkWinCondition c3WitnessState).winner = some Winner.impostors)
    ∧ ¬ aliveImpostorCount c3WitnessState = 0
    ∧ aliveCrewCount c3WitnessState = 0 := by
  have h := win_condition_characterisation c3WitnessState (by decide) (by decide)
  exact ⟨h.2.1.mpr ⟨by decide, by decide⟩, by decide, by decide⟩

/-- A movement-expiry state whose kill resolution removes the last crew
member, producing an impostor win. -/
def c4CounterState : GameState :=
  { players :=
      [ { publicKey := "A", role := { type := RoleType.impostor, room := 0 },
          isAlive := true,
          lastAction := some { type := ActionType.kill, target := some "B" } },
        { publicKey := "B", role := { type := RoleType.crewmate, room := 0 },
          isAlive := true } ],
    phase := Phase.movement, currentRound := 1, actionOrder := [], isActive := true }

/-- Counterexample to claim C4 as stated: the win evaluator finds a winner at
this movement-phase expiry and deactivates the game, yet the phase field stays
at movement — the machine never transitions to the terminal complete phase. -/
theorem phase_transition_counterexample :
    (processRound (fun l => l) c4CounterState).isActive = false
    ∧ (processRound (fun l => l) c4CounterState).winner = some Winner.impostors
    ∧ (processRound (fun l => l) c4CounterState).phase = Phase.movement
    ∧ ¬ (processRound (fun l => l) c4CounterState).phase = Phase.complete := by decide

/-- A state in which both factions stay alive, so the round continues. -/
def c4ActiveState : GameState :=
  { players :=
      [ { publicKey := "A", role := { type := RoleType.impostor, room := 0 },
          isAlive := true },
        { publicKey := "B", role := { type := RoleType.crewmate, room := 1 },
          isAlive := true },
        { publicKey := "C", role := { type := RoleType.crewmate, room := 2 },
          isAlive := true } ],
    phase := Phase.movement, currentRound := 1, actionOrder := [], isActive := true }

/-- A voting-expiry state whose ejection ends the game. -/
def c4VoteState : GameState :=
  { players :=
      [ { publicKey := "A", role := { type := RoleType.crewmate, room := 0 },
          isAlive := true },
        { publicKey := "B", role := { type := RoleType.impostor, room := 0 },
          isAlive := true } ],
    phase := Phase.voting, currentRound := 1, actionOrder := [],
    accusedPlayer := some "B", votingResults := some [("A", "B")], isActive := true }

theorem phase_transition_witness :
    (processRound (fun l => l) c4ActiveState).phase = Phase.action
    ∧ (processRound (fun l => l) c4CounterState).phase = c4CounterState.phase
    ∧ (processVotes (fun l => l) c4VoteState).phase = c4VoteState.phase
    ∧ (startMovementPhase c4ActiveState).phase = Phase.movement
    ∧ (startVotingPhase c4ActiveState "B").phase = Phase.voting
    ∧ ¬ (processRound (fun l => l) c4ActiveState).phase = Phase.complete := by
  have h1 := phase_transition_spec (fun l => l) c4ActiveState "B"
  have h2 := phase_transition_spec (fun l => l) c4CounterState "B"
  have h3 := phase_transition_spec (fun l => l) c4VoteState "B"
  exact ⟨h1.1 (by decide), h2.2.1 (by decide), h3.2.2.2.1 (by decide),
    h1.2.2.2.2.1, h1.2.2.2.2.2.1, (h1.2.2.2.2.2.2 (by decide)).1⟩

/-- A resolved voting state: B was ejected and crew won, yet the accused and
vote fields survive the resolution. -/
def c5CounterState : GameState :=
  { players :=
      [ { publicKey := "A", role := { type := RoleType.crewmate, room := 0 },
          isAlive := true },
        { publicKey := "B", role := { type := RoleType.impostor, room := 0 },
          isAlive := true } ],
    phase := Phase.voting, currentRound := 1, actionOrder := [],
    accusedPlayer := some "B", votingResults := some [("A", "B")], isActive := true }

/-- Counterexample to claim C5 as stated: after `processVotes` resolves this
voting phase, the accused field is still set and the votes mapping is still
the non-empty cast-vote map — neither is cleared. -/
theorem voting_reset_counterexample :
    ¬ (processVotes (fun l => l) c5CounterState).accusedPlayer = none
    ∧ ¬ (processVotes (fun l => l) c5CounterState).votingResults = some []
    ∧ ¬ (processVotes (fun l => l) c5CounterState).votingResults = none
    ∧ (processVotes (fun l => l) c5CounterState).accusedPlayer = some "B"
    ∧ (processVotes (fun l => l) c5CounterState).votingResults
        = some [("A", "B")] := by decide

/-- A state with a populated `lastVote` slot entering round resolution. -/
def c6CounterState : GameState :=
  { players :=
      [ { publicKey := "A", role := { type := RoleType.crewmate, room := 0 },
          isAlive := true,
          lastVote := some { target := some "B", voteText := "sus" } },
        { publicKey := "B", role := { type := RoleType.impostor, room := 1 },
          isAlive := true } ],
    phase := Phase.movement, currentRound := 1, actionOrder := [], isActive := true }

/-- Counterexample to claim C6 as stated: after the round's resolution step
the `lastVote` slot of participant A is still populated — only the action and
movement slots are cleared. -/
theorem decision_slots_counterexample :
    (processRound (fun l => l) c6CounterState).players.map (fun p => p.lastVote)
      = [some { target := some "B", voteText := "sus" }, none]
    ∧ ¬ (some { target := some "B", voteText := "sus" } : Option PlayerVote)
        = none := by decide

def c6WitnessPlayer : PlayerState :=
  { publicKey := "A", role := { type := RoleType.crewmate, room := 0 },
    isAlive := true,
    lastVote := some { target := some "B", voteText := "sus" } }

theorem decision_slots_witness :
    (c6WitnessPlayer.lastAction = none ∧ c6WitnessPlayer.lastMovement = none)
    ∧ (processRound (fun l => l) c6CounterState).players.map (fun p => p.lastVote)
        = c6CounterState.players.map (fun p => p.lastVote) :=
  ⟨(decision_slots_spec (fun l => l) c6CounterState).1 c6WitnessPlayer (by decide),
   (decision_slots_spec (fun l => l) c6CounterState).2⟩

def c7Rooms : Nat → Fin 6 := fun _ => 0

/-- Counterexample to claim C7 as stated: for the candidate list `[a, a]`
(duplicate ids) and the identity permutation (a possible outcome of the random
sort), the padded pool seats the duplicate at both impostor indices, the map
deduplicates by key, and only 1 participant ends up holding the impostor
role. -/
theorem role_assignment_counterexample :
    (padWithBots ["a", "a"]).length = 6
    ∧ countImpostors (assignRoles (padWithBots ["a", "a"]) c7Rooms) = 1
    ∧ ¬ countImpostors (assignRoles (padWithBots ["a", "a"]) c7Rooms) = 2 := by decide

theorem role_assignment_witness :
    (padWithBots ([] : List String)).Nodup
    ∧ 6 ≤ (assignRoles (padWithBots []) c7Rooms).length
    ∧ countImpostors (assignRoles (padWithBots []) c7Rooms) = 2
    ∧ countCrew (assignRoles (padWithBots []) c7Rooms)
        = (assignRoles (padWithBots []) c7Rooms).length - 2 := by
  have h := role_assignment_spec [] (padWithBots []) c7Rooms (List.Perm.refl _) (by decide)
  exact ⟨by decide, h.1, h.2.1, h.2.2.1⟩

/-- A state with one clockwise mover sitting in the last room. -/
def c8State : GameState :=
  { players :=
      [ { publicKey := "A", role := { type := RoleType.crewmate, room := 5 },
          isAlive := true, lastMovement := some MovementType.clockwise },
        { publicKey := "B", role := { type := RoleType.impostor, room := 0 },
          isAlive := true, lastMovement := some MovementType.counterclockwise } ],
    phase := Phase.movement, currentRound := 1, actionOrder := [], isActive := true }

theorem movement_resolution_witness :
    (processMovements c8State).players.length = c8State.players.length
    ∧ ((processMovements c8State).players.get ⟨0, by decide⟩).role.room = 0
    ∧ ((processMovements c8State).players.get ⟨1, by decide⟩).role.room = 5
    ∧ RoomInv (processMovements c8State)
    ∧ RoomInv (processRound (fun l => l) c8State) := by
  have h := movement_resolution_spec (fun l => l) "B" c8State
  have hinv : RoomInv c8State := by
    unfold RoomInv
    decide
  exact ⟨h.1, (h.2.1 0 (by decide) (by decide)).trans (by decide),
    (h.2.1 1 (by decide) (by decide)).trans (by decide),
    (h.2.2 hinv).1, (h.2.2 hinv).2.2.2.2.2.2.2.1⟩

/-- A state hosting a synthetic impostor and a co-located crew member. -/
def c10State : GameState :=
  { players :=
      [ { publicKey := "bot-1", role := { type := RoleType.impostor, room := 0 },
          isAlive := true },
        { publicKey := "P", role := { type := RoleType.crewmate, room := 0 },
          isAlive := true } ],
    phase := Phase.action, currentRound := 1, actionOrder := [], isActive := true }

def c10Player : PlayerState :=
  { publicKey := "bot-1", role := { type := RoleType.impostor, room := 0 },
    isAlive := true }

def c10ViewEntryP : PlayerViewEntry :=
  { publicKey := "P", isAlive := true, room := 0, role := some RoleType.crewmate,
    lastAction := none, lastVote := none }

theorem bot_impostor_never_kills_witness :
    makeBotActionDecision (getPlayerView c10State "bot-1") true 0
      = BotActionDecision.pass
    ∧ ¬ c10ViewEntryP.role = none := by
  have h := bot_impostor_never_kills c10State "bot-1" c10Player (by decide) (by decide)
    true 0
  exact ⟨h.2, h.1 c10ViewEntryP (by decide)⟩

end AImongUs
